import Mathlib

/-!
Verification development for the Voice-Agent appointment scheduling backend
(`backend/db.py`, `backend/main.py`).

The repository's authoritative self-contained semantics is the in-memory
fallback store of `Database` (`db.py`, the `from_memory` branches) together
with the tool layer of `VoiceAgent` (`main.py`).  Those are embedded below as
pure Lean functions over an explicit state.  Where a claim turns on the
Supabase query branch (`from_db`), the client-side query logic is embedded
separately as `*_dbPath` definitions over a list model of the table rows.

Machine details elided throughout (noted per definition): wall-clock reads
(`datetime.now()`) become explicit `Nat`/`Bool` parameters, Python exceptions
become `Option`, and Python dicts become structures carrying exactly the keys
the embedded code reads or writes.
-/

/-! ### String utilities

Python string primitives used by `main.py` (`strip`, `upper`, `in`,
`replace`, `split`, `zfill`, `int(...)`, `f"{h:02d}"`), re-implemented over
`List Char` with structural recursion so that all of them evaluate inside
`decide`/`rfl`. -/

/-- Python `str.upper()` on a character list (ASCII inputs in this code). -/
def upperL (l : List Char) : List Char := l.map Char.toUpper

/-- Python `str.lower()` on a character list. -/
def lowerL (l : List Char) : List Char := l.map Char.toLower

/-- Python `str.strip()`: drop whitespace from both ends. -/
def trimL (l : List Char) : List Char :=
  ((l.dropWhile Char.isWhitespace).reverse.dropWhile Char.isWhitespace).reverse

/-- Python `sub in s`: substring containment. -/
def containsL (sub : List Char) : List Char → Bool
  | [] => sub.isEmpty
  | c :: tl => sub.isPrefixOf (c :: tl) || containsL sub tl

/-- Fuel-driven core of `removeAllL`; the fuel is the length of the scanned
list, which suffices because every step consumes at least one character. -/
def removeAllAux (sub : List Char) : Nat → List Char → List Char
  | 0, l => l
  | _ + 1, [] => []
  | fuel + 1, c :: tl =>
    if sub.isPrefixOf (c :: tl) then removeAllAux sub fuel (tl.drop (sub.length - 1))
    else c :: removeAllAux sub fuel tl

/-- Python `s.replace(sub, "")` for a non-empty `sub`: remove every
non-overlapping occurrence, scanning left to right. -/
def removeAllL (sub l : List Char) : List Char := removeAllAux sub l.length l

/-- Python `s.split(sep)` for a single-character separator. -/
def splitOnCh (sep : Char) : List Char → List (List Char)
  | [] => [[]]
  | c :: tl =>
    if c == sep then [] :: splitOnCh sep tl
    else
      match splitOnCh sep tl with
      | h :: t => (c :: h) :: t
      | [] => [[c]]

/-- Digit-fold core of `parseNatL`. -/
def digitsVal : List Char → Nat → Option Nat
  | [], acc => some acc
  | c :: tl, acc =>
    if c.isDigit then digitsVal tl (acc * 10 + (c.toNat - 48)) else none

/-- Python `int(s)` restricted to non-negative decimal literals; `none` models
the `ValueError` raised on anything else (every input that the claims touch is
a plain digit string). -/
def parseNatL (l : List Char) : Option Nat :=
  if l.isEmpty then none else digitsVal l 0

/-- Python `s.zfill(2)`. -/
def zfill2 (l : List Char) : List Char :=
  if l.length < 2 then List.replicate (2 - l.length) '0' ++ l else l

/-- Python `f"{n:02d}"` for a non-negative `n`. -/
def pad2 (n : Nat) : String :=
  if n < 10 then "0" ++ toString n else toString n

/-! ### `VoiceAgent._normalize_time` (`main.py` lines 109-143) -/

/-- `VoiceAgent._normalize_time`: normalize a free-form time string to
`HH:MM`.  `none` models a `ValueError` escaping from `int(...)` or from the
two-element unpack of `time_part.split(":")`. -/
def normalize_time (s : String) : Option String :=
  let u := trimL (upperL s.data)
  if containsL "AM".data u || containsL "PM".data u then
    let tp := trimL (removeAllL "PM".data (removeAllL "AM".data u))
    let isPm := containsL "PM".data u
    let hm : Option (Nat × Nat) :=
      if containsL [':'] tp then
        match splitOnCh ':' tp with
        | [h, m] =>
          match parseNatL h, parseNatL m with
          | some hv, some mv => some (hv, mv)
          | _, _ => none
        | _ => none
      else
        match parseNatL tp with
        | some hv => some (hv, 0)
        | none => none
    match hm with
    | none => none
    | some (h, m) =>
      let h := if isPm && h != 12 then h + 12 else if !isPm && h == 12 then 0 else h
      some (pad2 h ++ ":" ++ pad2 m)
  else if containsL [':'] u then
    match splitOnCh ':' u with
    | [] => none
    | p0 :: rest =>
      let minute : List Char :=
        match rest with
        | m :: _ => zfill2 (m.take 2)
        | [] => "00".data
      some (⟨zfill2 p0⟩ ++ ":" ++ ⟨minute⟩)
  else
    match parseNatL u with
    | some h => some (pad2 h ++ ":00")
    | none => none

/-! ### Data model

Dict-shaped records of `db.py` embedded as structures carrying exactly the
keys the embedded code reads or writes. -/

/-- A row of the in-memory `_users` store
(`{id, contact_number, name, is_active}`). -/
structure DbUser where
  uid : String
  contact : String
  name : String
  active : Bool
deriving Repr, DecidableEq

/-- A row of the `_mentors` store (`{id, name, specialty, is_active}`). -/
structure Mentor where
  mid : String
  name : String
  specialty : String
  active : Bool
deriving Repr, DecidableEq

/-- An appointment record as built by `Database.book_appointment`. -/
structure Appt where
  aid : String
  userId : String
  contact : String
  date : String
  time : String
  durationMinutes : Nat
  status : String
  mentorId : Option String
  notes : Option String
deriving Repr, DecidableEq

/-- A `mentor_availability` row (`{mentor_id, date, start_time, end_time,
slot_duration_minutes, is_available}`). -/
structure Avail where
  wid : String
  mentorId : String
  date : String
  startTime : String
  endTime : String
  slotDurationMinutes : Nat
  available : Bool
deriving Repr, DecidableEq

/-- Python truthiness of an optional string (`None` and `""` are falsy). -/
def optTruthy : Option String → Bool
  | none => false
  | some s => !(s == "")

/-- `status in ("pending", "booked")`: a non-terminal appointment. -/
def isActiveStatus (s : String) : Bool := s == "pending" || s == "booked"

/-- The predicate of `is_slot_booked`'s memory branch: an appointment that
occupies `(date, time)` with a non-terminal status. -/
def slotActive (d t : String) (a : Appt) : Bool :=
  a.date == d && a.time == t && isActiveStatus a.status

/-- The in-memory fallback store of `Database` (`_init_memory`), restricted
to the tables the tool layer touches.  Messages live in `AgentState` below
(the single conversation of a model run), mirroring `_messages` filtered to
one session. -/
structure MemDB where
  users : List DbUser
  mentors : List Mentor
  appointments : List Appt
  availability : List Avail
deriving Repr, DecidableEq

/-! ### In-memory `Database` operations (`db.py`, `from_memory` branches) -/

/-- `Database.get_or_create_user` (memory branch): keyed by phone; a fresh
user gets `id = phone`. -/
def get_or_create_user (db : MemDB) (phone name : String) : DbUser × MemDB :=
  match db.users.find? (fun u => u.contact == phone) with
  | some u => (u, db)
  | none =>
    let u : DbUser := ⟨phone, phone, name, true⟩
    (u, { db with users := db.users ++ [u] })

/-- `Database.update_user` (memory branch) specialized to the only call site
(`identify_user` refreshing the display name). -/
def update_user_name (db : MemDB) (phone name : String) : MemDB :=
  { db with users := db.users.map (fun u => if u.contact == phone then { u with name := name } else u) }

/-- `Database.get_mentors` (memory branch). -/
def get_mentors (db : MemDB) (activeOnly : Bool) : List Mentor :=
  if activeOnly then db.mentors.filter (fun m => m.active) else db.mentors

/-- `Database.get_mentor_by_id` (memory branch). -/
def get_mentor_by_id (db : MemDB) (mentorId : String) : Option Mentor :=
  db.mentors.find? (fun m => m.mid == mentorId)

/-- `Database.is_slot_booked` (memory branch, `db.py` lines 153-157): note
that the `mentor_id` parameter is accepted but NOT used — any non-terminal
appointment at `(date, time)` makes the slot booked, regardless of mentor. -/
def is_slot_booked (db : MemDB) (dateStr timeStr : String) (_mentorId : Option String) : Bool :=
  db.appointments.any (slotActive dateStr timeStr)

/-- `Database.is_mentor_available` (memory branch, `db.py` lines 181-183):
the fallback unconditionally reports the mentor as available. -/
def is_mentor_available (_db : MemDB) (_mentorId _dateStr _timeStr : String) : Bool :=
  true

/-- `Database.book_appointment` (memory branch): unconditionally append a new
appointment in status `"booked"` with id `apt_{len+1}`. -/
def book_appointment (db : MemDB) (phone dateStr timeStr : String)
    (mentorId : Option String) (notes : Option String) (durationMinutes : Nat) :
    Appt × MemDB :=
  let r := get_or_create_user db phone "User"
  let apt : Appt :=
    { aid := "apt_" ++ toString (r.2.appointments.length + 1)
      userId := r.1.uid
      contact := phone
      date := dateStr
      time := timeStr
      durationMinutes := durationMinutes
      status := "booked"
      mentorId := mentorId
      notes := notes }
  (apt, { r.2 with appointments := r.2.appointments ++ [apt] })

/-- In-place update of the first list element satisfying `q` (the shape of the
`for apt in self._appointments: if ...` loops of `cancel_appointment`,
`cancel_appointment_by_id` and `modify_appointment`); returns the updated
element when a match was found. -/
def updateFirst (q : Appt → Bool) (f : Appt → Appt) : List Appt → Option Appt × List Appt
  | [] => (none, [])
  | a :: rest =>
    if q a then (some (f a), f a :: rest)
    else
      let r := updateFirst q f rest
      (r.1, a :: r.2)

/-- `Database.cancel_appointment` (memory branch): flip the first matching
non-terminal appointment of `(phone, date, time)` to `"cancelled"`. -/
def cancel_appointment (db : MemDB) (phone dateStr timeStr : String) : Bool × MemDB :=
  let r := updateFirst
    (fun a => a.contact == phone && a.date == dateStr && a.time == timeStr && isActiveStatus a.status)
    (fun a => { a with status := "cancelled" }) db.appointments
  (r.1.isSome, { db with appointments := r.2 })

/-- `Database.cancel_appointment_by_id` (memory branch). -/
def cancel_appointment_by_id (db : MemDB) (appointmentId : String) : Bool × MemDB :=
  let r := updateFirst
    (fun a => a.aid == appointmentId && isActiveStatus a.status)
    (fun a => { a with status := "cancelled" }) db.appointments
  (r.1.isSome, { db with appointments := r.2 })

/-- The mutation step of `Database.modify_appointment` (memory branch): move
the first matching non-terminal appointment to the new slot, overwriting its
`mentor_id` when one is (truthily) provided. -/
def modify_apply (db : MemDB) (phone oldDate oldTime newDate newTime : String)
    (mentorId : Option String) : Option Appt × MemDB :=
  let r := updateFirst
    (fun a => a.contact == phone && a.date == oldDate && a.time == oldTime && isActiveStatus a.status)
    (fun a => { a with date := newDate, time := newTime,
                       mentorId := if optTruthy mentorId then mentorId else a.mentorId })
    db.appointments
  (r.1, { db with appointments := r.2 })

/-- `Database.modify_appointment` (memory branch, `db.py` lines 246-289):
guard with the availability/slot checks, then move the first match.  `none`
means the modification did not happen. -/
def modify_appointment (db : MemDB) (phone oldDate oldTime newDate newTime : String)
    (mentorId : Option String) : Option Appt × MemDB :=
  if optTruthy mentorId then
    if !is_mentor_available db (mentorId.getD "") newDate newTime then (none, db)
    else if is_slot_booked db newDate newTime mentorId then (none, db)
    else modify_apply db phone oldDate oldTime newDate newTime mentorId
  else
    if is_slot_booked db newDate newTime none then (none, db)
    else modify_apply db phone oldDate oldTime newDate newTime mentorId

/-- Stable insertion placing `a` before the first strictly-greater element,
so that `sortByDateTime` matches Python's stable `sorted`. -/
def insertByDateTime (a : Appt) : List Appt → List Appt
  | [] => [a]
  | b :: rest =>
    if a.date < b.date || (a.date == b.date && a.time ≤ b.time) then a :: b :: rest
    else b :: insertByDateTime a rest

/-- Python `sorted(apts, key=lambda x: (x["date"], x["time"]))`. -/
def sortByDateTime : List Appt → List Appt
  | [] => []
  | a :: rest => insertByDateTime a (sortByDateTime rest)

/-- `Database.get_user_appointments` (memory branch): the caller's
appointments, optionally filtered by status, ordered by `(date, time)`. -/
def get_user_appointments (db : MemDB) (phone : String) (status : Option (List String)) : List Appt :=
  let apts := db.appointments.filter (fun a => a.contact == phone)
  let apts :=
    match status with
    | some ss => apts.filter (fun a => ss.contains a.status)
    | none => apts
  sortByDateTime apts

/-- `Database.get_appointment_by_id` (memory branch). -/
def get_appointment_by_id (db : MemDB) (appointmentId : String) : Option Appt :=
  db.appointments.find? (fun a => a.aid == appointmentId)

/-! ### Supabase query branches (`from_db`)

Client-side filter logic of the `from_db` closures, over a list model of the
table rows.  Server-side behaviour beyond plain row filtering (constraints,
triggers) is outside the repository and not modelled. -/

/-- `Database.is_slot_booked` (Supabase branch, `db.py` lines 148-152): the
query filters by date, time, non-terminal status — and by mentor when a
truthy `mentor_id` is supplied. -/
def is_slot_booked_dbPath (rows : List Appt) (dateStr timeStr : String)
    (mentorId : Option String) : Bool :=
  rows.any (fun a =>
    slotActive dateStr timeStr a &&
    (if optTruthy mentorId then a.mentorId == mentorId else true))

/-- `datetime.strptime(s, "%H:%M")` as seconds since midnight. -/
def parseHM (s : String) : Option Nat :=
  match splitOnCh ':' s.data with
  | [h, m] =>
    match parseNatL h, parseNatL m with
    | some hv, some mv => if hv ≤ 23 && mv ≤ 59 then some (hv * 3600 + mv * 60) else none
    | _, _ => none
  | _ => none

/-- `datetime.strptime(s, "%H:%M:%S")` as seconds since midnight. -/
def parseHMS (s : String) : Option Nat :=
  match splitOnCh ':' s.data with
  | [h, m, sec] =>
    match parseNatL h, parseNatL m, parseNatL sec with
    | some hv, some mv, some sv =>
      if hv ≤ 23 && mv ≤ 59 && sv ≤ 59 then some (hv * 3600 + mv * 60 + sv) else none
    | _, _, _ => none
  | _ => none

/-- Window scan of `is_mentor_available` (Supabase branch): return true on the
first window with `start <= t < end`; a parse failure raises inside the
`try`, which the surrounding `except` turns into an overall `False`. -/
def availScan (t : Nat) : List Avail → Bool
  | [] => false
  | w :: ws =>
    match parseHMS w.startTime, parseHMS w.endTime with
    | some s, some e => if s ≤ t && t < e then true else availScan t ws
    | _, _ => false

/-- `Database.is_mentor_available` (Supabase branch, `db.py` lines 162-179):
filter the availability rows by mentor, date and `is_available`, then check
whether any window covers the slot time. -/
def is_mentor_available_dbPath (rows : List Avail) (mentorId dateStr timeStr : String) : Bool :=
  let relevant := rows.filter (fun w => w.mentorId == mentorId && w.date == dateStr && w.available)
  if relevant.isEmpty then false
  else
    match parseHM timeStr with
    | none => false
    | some t => availScan t relevant

/-! ### Cost accounting (`main.py` lines 54-60 and 172-209) -/

/-- Usage metrics accumulated by LiveKit's `UsageCollector`, as read by
`calculate_cost`.  Float quantities are modelled as exact rationals. -/
structure Usage where
  sttAudioSeconds : Rat
  ttsCharacters : Nat
  ttsAudioSeconds : Rat
  llmInputTokens : Nat
  llmOutputTokens : Nat
deriving Repr, DecidableEq

/-- The result of `VoiceAgent.calculate_cost`, with the breakdown fields that
`end_session` later reads.  Python's `round(x, 6)` is presentation only and
kept as the exact value here. -/
structure Cost where
  stt : Rat
  tts : Rat
  llm : Rat
  total : Rat
  sttMinutes : Rat
  ttsCharacters : Nat
  llmTotalTokens : Nat
deriving Repr, DecidableEq

/-- `VoiceAgent.calculate_cost` (`main.py` lines 172-209) over the pricing
table `COST_PER_UNIT`. -/
def calculate_cost (u : Usage) : Cost :=
  let sttMinutes : Rat := u.sttAudioSeconds / 60
  let sttCost : Rat := sttMinutes * (43 / 10000)
  let ttsCost : Rat := ((u.ttsCharacters : Rat) / 100) * (15 / 10000)
  let llmInputCost : Rat := ((u.llmInputTokens : Rat) / 1000) * (15 / 100000)
  let llmOutputCost : Rat := ((u.llmOutputTokens : Rat) / 1000) * (6 / 10000)
  { stt := sttCost
    tts := ttsCost
    llm := llmInputCost + llmOutputCost
    total := sttCost + ttsCost + (llmInputCost + llmOutputCost)
    sttMinutes := sttMinutes
    ttsCharacters := u.ttsCharacters
    llmTotalTokens := u.llmInputTokens + u.llmOutputTokens }

/-! ### Sessions (`db.py` lines 331-452) -/

/-- A `sessions` row, restricted to the fields the embedded code touches.
Timestamps are seconds (`started_at`/`ended_at` ISO strings in the source). -/
structure Sess where
  sid : String
  contact : Option String
  userId : Option String
  startedAt : Nat
  endedAt : Option Nat
  status : String
  summary : Option String
  durationSeconds : Option Nat
  costBreakdown : Option Cost
deriving Repr, DecidableEq

/-- `Database.update_session` (memory branch): apply a field update to the
session with the given id, unconditionally — there is no status guard. -/
def update_session (store : List Sess) (sessionId : String) (f : Sess → Sess) : List Sess :=
  store.map (fun s => if s.sid == sessionId then f s else s)

/-- `Database.get_session` (memory branch). -/
def get_session (store : List Sess) (sessionId : String) : Option Sess :=
  store.find? (fun s => s.sid == sessionId)

/-- One session's update under `Database.cleanup_abandoned_sessions`
(memory branch): an `active` session started more than `timeout_minutes`
ago becomes `abandoned`; every other session is untouched. -/
def cleanupOne (now timeoutMinutes : Nat) (s : Sess) : Sess :=
  if s.status == "active" && decide (timeoutMinutes * 60 < now - s.startedAt) then
    { s with status := "abandoned" }
  else s

/-- `Database.cleanup_abandoned_sessions` (memory branch): sweep every
session, returning the new store and the number of newly-abandoned ones. -/
def cleanup_abandoned_sessions (now timeoutMinutes : Nat) (store : List Sess) :
    List Sess × Nat :=
  (store.map (cleanupOne now timeoutMinutes),
   store.countP (fun s => s.status == "active" && decide (timeoutMinutes * 60 < now - s.startedAt)))

/-- `Database.end_session` (`db.py` lines 405-452): set `ended_at`, set
status to `"completed"` — unconditionally, whatever the current status —
optionally record contact/summary/cost, and compute `duration_seconds` when
the session is found.  (`log_cost` is a no-op in the memory branch.) -/
def end_session (now : Nat) (store : List Sess) (sessionId : String)
    (contact : Option String) (summary : Option String) (cost : Option Cost) :
    List Sess :=
  let dur : Option Nat := (get_session store sessionId).map (fun s => now - s.startedAt)
  update_session store sessionId (fun s =>
    { s with
      endedAt := some now
      status := "completed"
      contact := if optTruthy contact then contact else s.contact
      summary := if optTruthy summary then summary else s.summary
      costBreakdown := if cost.isSome then cost else s.costBreakdown
      durationSeconds := match dur with | some d => some d | none => s.durationSeconds })

/-! ### The Tool Dispatcher (`main.py`, `VoiceAgent` tools)

One conversation's state: the database, the session store, the bound caller
identity (`self.user_phone` / `self.user_name`) and the session message log
(`_messages` filtered to this session).  Read-only side channels
(`send_to_frontend`, logging) have no state and are not modelled; the
`datetime.now()` comparison of `_validate_date_time` enters as the explicit
`pastOk` argument. -/

/-- A `session_messages` row, carrying exactly the `tool_args` / `tool_result`
keys that `end_conversation` later reads back. -/
structure Msg where
  role : String
  content : String
  toolName : Option String
  argDate : Option String
  argTime : Option String
  argOldDate : Option String
  argOldTime : Option String
  argNewDate : Option String
  argNewTime : Option String
  argMentorId : Option String
  argNotes : Option String
  argApptId : Option String
  argPhone : Option String
  argName : Option String
  resSuccess : Bool
  resMentorName : Option String
  resApptId : Option String
deriving Repr, DecidableEq

/-- The all-absent message; tool handlers below fill in what they log. -/
def baseMsg : Msg :=
  { role := "", content := "", toolName := none,
    argDate := none, argTime := none, argOldDate := none, argOldTime := none,
    argNewDate := none, argNewTime := none, argMentorId := none, argNotes := none,
    argApptId := none, argPhone := none, argName := none,
    resSuccess := false, resMentorName := none, resApptId := none }

/-- The conversation state held by one `VoiceAgent` instance. -/
structure AgentState where
  db : MemDB
  sessions : List Sess
  sessionId : String
  userPhone : Option String
  userName : Option String
  msgs : List Msg
deriving Repr, DecidableEq

/-- Python `s.lower()`. -/
def lowerS (s : String) : String := ⟨lowerL s.data⟩

/-- Phone normalization of `identify_user` (`main.py` lines 280-284): keep
digits; 10 digits get the `+1` prefix; otherwise prefix `+` when absent. -/
def normalize_phone (raw : String) : String :=
  let ds := raw.data.filter Char.isDigit
  if ds.length == 10 then "+1" ++ (⟨ds⟩ : String)
  else if ['+'].isPrefixOf ds then (⟨ds⟩ : String)
  else "+" ++ (⟨ds⟩ : String)

/-- Mentor-name resolution shared by `fetch_slots` / `book_appointment`
(`main.py` lines 414-421): when a truthy name is given without an id, match
it case-insensitively against active mentors; `none` models the
"couldn't find a mentor named ..." early return. -/
def resolve_mentor (db : MemDB) (mentorId mentorName : Option String) : Option (Option String) :=
  if optTruthy mentorName && !optTruthy mentorId then
    match (get_mentors db true).find? (fun m => lowerS m.name == lowerS (mentorName.getD "")) with
    | some m => some (some m.mid)
    | none => none
  else some mentorId

/-- The distinct returns of `book_appointment` (`main.py` lines 400-469); the
constructors are in source order, each standing for one returned string. -/
inductive BookResult where
  | notIdentified
  | mentorNameNotFound
  | noMentorSelected
  | timeError
  | pastDate
  | invalidMentor
  | mentorUnavailable
  | slotTaken
  | booked (appointmentId : String)
deriving Repr, DecidableEq

/-- `VoiceAgent.book_appointment` (`main.py` lines 400-469). -/
def toolBook (s : AgentState) (date time0 : String) (mentorId mentorName : Option String)
    (notes : Option String) (pastOk : Bool) : AgentState × BookResult :=
  match s.userPhone with
  | none => (s, .notIdentified)
  | some phone =>
    match resolve_mentor s.db mentorId mentorName with
    | none => (s, .mentorNameNotFound)
    | some mid =>
      if !optTruthy mid then (s, .noMentorSelected)
      else
        match normalize_time time0 with
        | none => (s, .timeError)
        | some time =>
          if !pastOk then (s, .pastDate)
          else
            match get_mentor_by_id s.db (mid.getD "") with
            | none => (s, .invalidMentor)
            | some mentor =>
              if !is_mentor_available s.db (mid.getD "") date time then (s, .mentorUnavailable)
              else if is_slot_booked s.db date time mid then (s, .slotTaken)
              else
                let r := book_appointment s.db phone date time mid notes 60
                let msg := { baseMsg with
                  role := "tool", toolName := some "book_appointment",
                  content := "Booked: " ++ date ++ " " ++ time ++ " with " ++ mentor.name,
                  argDate := some date, argTime := some time,
                  argMentorId := mid, argNotes := notes,
                  resSuccess := true, resMentorName := some mentor.name,
                  resApptId := some r.1.aid }
                ({ s with db := r.2, msgs := s.msgs ++ [msg] }, .booked r.1.aid)

/-- The distinct returns of `cancel_appointment` (`main.py` lines 497-564). -/
inductive CancelResult where
  | notIdentified
  | timeError
  | idNotFound
  | notYours
  | cancelledById (success : Bool)
  | noActiveMatch
  | cancelledByTime (success : Bool)
deriving Repr, DecidableEq

/-- `VoiceAgent.cancel_appointment` (`main.py` lines 497-564).  In the memory
store appointments carry no joined `mentors` dict, so the displayed mentor
name is always the `"a consultant"` fallback. -/
def toolCancel (s : AgentState) (date time0 : String) (apptId : Option String) :
    AgentState × CancelResult :=
  match s.userPhone with
  | none => (s, .notIdentified)
  | some phone =>
    match normalize_time time0 with
    | none => (s, .timeError)
    | some time =>
      if optTruthy apptId then
        let aid := apptId.getD ""
        match get_appointment_by_id s.db aid with
        | none => (s, .idNotFound)
        | some apt =>
          if !(apt.contact == phone) then (s, .notYours)
          else
            let r := cancel_appointment_by_id s.db aid
            let msg := { baseMsg with
              role := "tool", toolName := some "cancel_appointment",
              content := "Cancel: " ++ aid,
              argApptId := some aid, argDate := some date, argTime := some time,
              resSuccess := r.1, resApptId := some aid,
              resMentorName := some "a consultant" }
            ({ s with db := r.2, msgs := s.msgs ++ [msg] }, .cancelledById r.1)
      else
        let apts := get_user_appointments s.db phone (some ["pending", "booked"])
        match apts.find? (fun a => a.date == date && a.time == time) with
        | none => (s, .noActiveMatch)
        | some matching =>
          let r := cancel_appointment s.db phone date time
          let msg := { baseMsg with
            role := "tool", toolName := some "cancel_appointment",
            content := "Cancel: " ++ date ++ " " ++ time,
            argDate := some date, argTime := some time,
            resSuccess := r.1, resApptId := some matching.aid,
            resMentorName := some "a consultant" }
          ({ s with db := r.2, msgs := s.msgs ++ [msg] }, .cancelledByTime r.1)

/-- The distinct returns of `modify_appointment` (`main.py` lines 566-640). -/
inductive ModifyResult where
  | notIdentified
  | timeError
  | pastDate
  | idNotFound
  | notYours
  | notFound
  | noMentorAssigned
  | mentorGone
  | mentorUnavailable
  | slotTaken
  | modified (appointmentId : String)
  | couldNotModify
deriving Repr, DecidableEq

/-- `true` exactly on the success return of the modify tool. -/
def ModifyResult.isSuccess : ModifyResult → Bool
  | .modified _ => true
  | _ => false

/-- The tail of `VoiceAgent.modify_appointment` after the source appointment
has been located (`main.py` lines 609-640). -/
def toolModifyResolved (s : AgentState) (phone oldDate oldTime newDate newTime : String)
    (orig : Appt) : AgentState × ModifyResult :=
  if !optTruthy orig.mentorId then (s, .noMentorAssigned)
  else
    let mid := orig.mentorId
    match get_mentor_by_id s.db (mid.getD "") with
    | none => (s, .mentorGone)
    | some mentor =>
      if !is_mentor_available s.db (mid.getD "") newDate newTime then (s, .mentorUnavailable)
      else if is_slot_booked s.db newDate newTime mid then (s, .slotTaken)
      else
        let r := modify_appointment s.db phone oldDate oldTime newDate newTime mid
        let msg := { baseMsg with
          role := "tool", toolName := some "modify_appointment",
          content := "Modify: " ++ oldDate ++ " " ++ oldTime ++ " → " ++ newDate ++ " " ++ newTime,
          argOldDate := some oldDate, argOldTime := some oldTime,
          argNewDate := some newDate, argNewTime := some newTime,
          argApptId := some orig.aid,
          resSuccess := r.1.isSome, resApptId := some orig.aid,
          resMentorName := some mentor.name }
        ({ s with db := r.2, msgs := s.msgs ++ [msg] },
         if r.1.isSome then .modified orig.aid else .couldNotModify)

/-- `VoiceAgent.modify_appointment` (`main.py` lines 566-640). -/
def toolModify (s : AgentState) (oldDate oldTime0 newDate newTime0 : String)
    (apptId : Option String) (pastOk : Bool) : AgentState × ModifyResult :=
  match s.userPhone with
  | none => (s, .notIdentified)
  | some phone =>
    match normalize_time oldTime0, normalize_time newTime0 with
    | some oldTime, some newTime =>
      if !pastOk then (s, .pastDate)
      else
        if optTruthy apptId then
          match get_appointment_by_id s.db (apptId.getD "") with
          | none => (s, .idNotFound)
          | some apt =>
            if !(apt.contact == phone) then (s, .notYours)
            else toolModifyResolved s phone oldDate oldTime newDate newTime apt
        else
          match (get_user_appointments s.db phone (some ["pending", "booked"])).find?
              (fun a => a.date == oldDate && a.time == oldTime) with
          | none => (s, .notFound)
          | some apt => toolModifyResolved s phone oldDate oldTime newDate newTime apt
    | _, _ => (s, .timeError)

/-- `VoiceAgent.identify_user` (`main.py` lines 272-318); the context-aware
greeting is a read-only rendering and is not modelled. -/
def toolIdentify (s : AgentState) (phoneRaw : String) (name : Option String) : AgentState :=
  let phone := normalize_phone phoneRaw
  let r := get_or_create_user s.db phone (if optTruthy name then name.getD "" else "User")
  let user := r.1
  let rename := optTruthy name && !(name.getD "" == user.name)
  let db2 := if rename then update_user_name r.2 phone (name.getD "") else r.2
  let newName := if rename then name.getD "" else user.name
  let r2 := get_or_create_user db2 phone "User"
  let sessions2 := update_session s.sessions s.sessionId
    (fun ss => { ss with contact := some phone, userId := some r2.1.uid })
  let msg := { baseMsg with
    role := "tool", toolName := some "identify_user",
    content := "Identified user: " ++ phone,
    argPhone := some phoneRaw, argName := name }
  { s with db := r2.2, sessions := sessions2, userPhone := some phone,
           userName := some newName, msgs := s.msgs ++ [msg] }

/-- Python `f"{o}"` on an optional string: `None` prints as `"None"`. -/
def fmtOptNone (o : Option String) : String := o.getD "None"

/-- Python `args.get(key, "")`. -/
def fmtOptEmpty (o : Option String) : String := o.getD ""

/-- The `summary_parts` aggregation of `end_conversation` (`main.py` lines
648-663). -/
def summaryParts (msgs : List Msg) : List String :=
  (msgs.filter (fun m => m.role == "tool" && optTruthy m.toolName)).filterMap (fun m =>
    if m.toolName == some "book_appointment" && m.resSuccess then
      some ("Booked appointment for " ++ fmtOptNone m.argDate ++ " at " ++ fmtOptNone m.argTime ++
        " with " ++ m.resMentorName.getD "a consultant" ++
        " (ID: " ++ m.resApptId.getD "" ++ ")")
    else if m.toolName == some "cancel_appointment" && m.resSuccess then
      some ("Cancelled appointment for " ++ fmtOptNone m.argDate ++ " at " ++ fmtOptEmpty m.argTime ++
        " with " ++ m.resMentorName.getD "a consultant" ++
        " (ID: " ++ m.resApptId.getD "" ++ ")")
    else if m.toolName == some "modify_appointment" && m.resSuccess then
      some ("Moved appointment from " ++ fmtOptNone m.argOldDate ++ " at " ++ fmtOptEmpty m.argOldTime ++
        " to " ++ fmtOptNone m.argNewDate ++ " at " ++ fmtOptEmpty m.argNewTime ++
        " with " ++ m.resMentorName.getD "a consultant" ++
        " (ID: " ++ m.resApptId.getD "" ++ ")")
    else none)

/-- The caller-facing response string of `end_conversation` (`main.py` lines
687-691). -/
def buildResponse (parts : List String) (appointments : List Appt) : String :=
  let r := "Here\x27s a summary: "
  let r := r ++ (if parts.isEmpty then "We discussed your appointments. "
                 else String.intercalate ". " parts ++ ". ")
  let r := r ++ (if appointments.isEmpty then ""
                 else "You have " ++ toString appointments.length ++ " upcoming appointment" ++
                      (if 1 < appointments.length then "s" else "") ++ ". ")
  r ++ "Thank you for using SuperBryn!"

/-- `VoiceAgent.end_conversation` (`main.py` lines 642-694): aggregate the
action log, price the collected usage, persist the session as completed, and
return the caller-facing response (which carries no cost data). -/
def toolEndConversation (s : AgentState) (now : Nat) (usage : Usage) : AgentState × String :=
  let appointments :=
    if optTruthy s.userPhone then get_user_appointments s.db (s.userPhone.getD "") (some ["booked"])
    else []
  let parts := summaryParts s.msgs
  let cost := calculate_cost usage
  let summaryText := if parts.isEmpty then "No changes made" else String.intercalate "; " parts
  let sessions2 := end_session now s.sessions s.sessionId s.userPhone (some summaryText) (some cost)
  ({ s with sessions := sessions2 }, buildResponse parts appointments)

/-- One external tool invocation: the five Tool Dispatcher operations that
drive the Appointment Ledger within a conversation. -/
inductive ToolOp where
  | identify (phoneRaw : String) (name : Option String)
  | book (date time : String) (mentorId mentorName notes : Option String) (pastOk : Bool)
  | cancel (date time : String) (apptId : Option String)
  | modify (oldDate oldTime newDate newTime : String) (apptId : Option String) (pastOk : Bool)
  | endConv (now : Nat) (usage : Usage)

/-- State effect of one sequential tool call. -/
def stepTool (s : AgentState) : ToolOp → AgentState
  | .identify raw name => toolIdentify s raw name
  | .book d t mid mname notes ok => (toolBook s d t mid mname notes ok).1
  | .cancel d t aid => (toolCancel s d t aid).1
  | .modify od ot nd nt aid ok => (toolModify s od ot nd nt aid ok).1
  | .endConv now u => (toolEndConversation s now u).1

/-- Conversation start (`entrypoint`): a fresh session, no identified caller,
no messages, and a ledger with no appointments. -/
def initState (users : List DbUser) (mentors : List Mentor) (avail : List Avail)
    (sessions : List Sess) (sessionId : String) : AgentState :=
  { db := { users := users, mentors := mentors, appointments := [], availability := avail }
    sessions := sessions
    sessionId := sessionId
    userPhone := none
    userName := none
    msgs := [] }

/-- Run a sequence of sequential tool calls. -/
def runTools (s : AgentState) (ops : List ToolOp) : AgentState :=
  ops.foldl stepTool s

/-! ### Slot enumeration (`db.py` lines 568-586 and `main.py` lines 366-386)

Both walks are `while current < end: emit current; current += duration`
loops over a window, in minutes.  `get_available_slots_for_mentor` steps a
`datetime` anchored at 1900-01-01, so adding the duration never wraps: the
current minute count just keeps growing past midnight and the loop exits.
`fetch_slots` instead steps a `datetime.time` via
`(datetime.combine(today, current) + timedelta(...)).time()`, which reduces
the new time modulo 24 hours.  The loops are embedded with an explicit
iteration budget (`fuel`): `none` means the budget was exhausted with the
loop still running, so a result for every budget means termination and
`none` for every budget means divergence. -/

/-- The slot loop of `Database.get_available_slots_for_mentor` (`db.py`
lines 579-586), emitting the candidate minutes-of-day; `current` advances
without wrap-around. -/
def dbWalk : Nat → Nat → Nat → Nat → Option (List Nat)
  | 0, current, endT, _ => if current < endT then none else some []
  | fuel + 1, current, endT, dur =>
    if current < endT then
      match dbWalk fuel (current + dur) endT dur with
      | some ts => some (current :: ts)
      | none => none
    else some []

/-- The slot loop of `fetch_slots` (`main.py` lines 371-386): the step
`(datetime.combine(today, current_time) + timedelta(minutes=dur)).time()`
wraps modulo 1440 minutes. -/
def fetchWalk : Nat → Nat → Nat → Nat → Option (List Nat)
  | 0, current, endT, _ => if current < endT then none else some []
  | fuel + 1, current, endT, dur =>
    if current < endT then
      match fetchWalk fuel ((current + dur) % 1440) endT dur with
      | some ts => some (current :: ts)
      | none => none
    else some []

/-- The candidate times emitted by the first `fuel` iterations of the
`fetch_slots` loop (its emission trace, defined even when the loop does not
terminate). -/
def fetchWalkEmit : Nat → Nat → Nat → Nat → List Nat
  | 0, _, _, _ => []
  | fuel + 1, current, endT, dur =>
    if current < endT then current :: fetchWalkEmit fuel ((current + dur) % 1440) endT dur
    else []

/-! ### Lemmas about `updateFirst` (the update-first-match loop shape) -/

theorem updateFirst_fst_isSome (q : Appt → Bool) (f : Appt → Appt) :
    ∀ l : List Appt, ((updateFirst q f l).1).isSome = l.any q := by
  intro l
  induction l with
  | nil => rfl
  | cons a rest ih =>
    by_cases h : q a = true
    · simp [updateFirst, h]
    · simp only [Bool.not_eq_true] at h
      simp [updateFirst, h, ih]

theorem updateFirst_none_eq (q : Appt → Bool) (f : Appt → Appt) :
    ∀ l : List Appt, (updateFirst q f l).1 = none → (updateFirst q f l).2 = l := by
  intro l
  induction l with
  | nil => intro; rfl
  | cons a rest ih =>
    by_cases h : q a = true
    · simp [updateFirst, h]
    · simp only [Bool.not_eq_true] at h
      simp only [updateFirst, h, Bool.false_eq_true, if_false]
      intro hn
      simp only [List.cons.injEq, true_and]
      exact ih hn

theorem updateFirst_no_match (q : Appt → Bool) (f : Appt → Appt) :
    ∀ l : List Appt, l.any q = false → updateFirst q f l = (none, l) := by
  intro l
  induction l with
  | nil => intro; rfl
  | cons a rest ih =>
    intro h
    simp only [List.any_cons, Bool.or_eq_false_iff] at h
    have hr := ih h.2
    simp [updateFirst, h.1, hr]

theorem updateFirst_countP_le (q : Appt → Bool) (f : Appt → Appt) (p : Appt → Bool)
    (hf : ∀ a, p (f a) = false) :
    ∀ l : List Appt, ((updateFirst q f l).2).countP p ≤ l.countP p := by
  intro l
  induction l with
  | nil => exact Nat.le_refl _
  | cons a rest ih =>
    by_cases h : q a = true
    · simp [updateFirst, h, List.countP_cons, hf]
    · simp only [Bool.not_eq_true] at h
      simp only [updateFirst, h, Bool.false_eq_true, if_false, List.countP_cons]
      omega

theorem updateFirst_countP_of_zero (q : Appt → Bool) (f : Appt → Appt) (p : Appt → Bool) :
    ∀ l : List Appt, l.countP p = 0 → ((updateFirst q f l).2).countP p ≤ 1 := by
  intro l
  induction l with
  | nil => intro; exact Nat.zero_le _
  | cons a rest ih =>
    intro h0
    simp only [List.countP_cons] at h0
    have hrest : rest.countP p = 0 := by omega
    have ha : ¬ p a = true := by by_contra hc; simp [hc] at h0
    by_cases h : q a = true
    · simp only [updateFirst, h, if_true, List.countP_cons, hrest]
      split <;> omega
    · simp only [Bool.not_eq_true] at h
      simp only [updateFirst, h, Bool.false_eq_true, if_false, List.countP_cons]
      have hih := ih hrest
      have hpa : (if p a = true then 1 else 0) = 0 := by simp [ha]
      omega

theorem updateFirst_any_false (q : Appt → Bool) (f : Appt → Appt)
    (hf : ∀ a, q (f a) = false) :
    ∀ l : List Appt, l.countP q ≤ 1 → ((updateFirst q f l).2).any q = false := by
  intro l
  induction l with
  | nil => intro; rfl
  | cons a rest ih =>
    intro h1
    simp only [List.countP_cons] at h1
    by_cases h : q a = true
    · have hrest : rest.countP q = 0 := by
        have hq1 : (if q a = true then 1 else 0) = 1 := by simp [h]
        omega
      have : ∀ x ∈ rest, ¬ q x = true := List.countP_eq_zero.mp hrest
      simp only [updateFirst, h, if_true, List.any_cons, hf, Bool.false_or]
      exact List.any_eq_false.mpr this
    · simp only [Bool.not_eq_true] at h
      simp only [updateFirst, h, Bool.false_eq_true, if_false, List.any_cons, h, Bool.false_or]
      apply ih
      have hqa : (if q a = true then 1 else 0) = 0 := by simp [h]
      omega

theorem updateFirst_mem (q : Appt → Bool) (f : Appt → Appt) :
    ∀ l : List Appt, l.any q = true →
      ∃ a ∈ l, q a = true ∧ f a ∈ (updateFirst q f l).2 := by
  intro l
  induction l with
  | nil => intro h; simp at h
  | cons a rest ih =>
    intro h
    by_cases hq : q a = true
    · exact ⟨a, List.mem_cons_self a rest, hq, by simp [updateFirst, hq]⟩
    · simp only [Bool.not_eq_true] at hq
      simp only [List.any_cons, hq, Bool.false_or] at h
      obtain ⟨b, hb, hqb, hmem⟩ := ih h
      exact ⟨b, List.mem_cons_of_mem a hb, hqb,
        by simp only [updateFirst, hq, Bool.false_eq_true, if_false]; exact List.mem_cons_of_mem a hmem⟩

/-! ### The slot invariant (claim C1 machinery) -/

/-- At most one non-terminal appointment occupies any `(date, time)` pair.
This is the (mentor-agnostic) invariant the in-memory ledger maintains; it
implies the per-mentor statement of the spec. -/
def slotInv (l : List Appt) : Prop :=
  ∀ d t : String, l.countP (slotActive d t) ≤ 1

theorem countP_eq_zero_of_any_false {p : Appt → Bool} {l : List Appt}
    (h : l.any p = false) : l.countP p = 0 :=
  List.countP_eq_zero.mpr (List.any_eq_false.mp h)

theorem slotActive_cancelled (d t : String) (a : Appt) :
    slotActive d t { a with status := "cancelled" } = false := by
  simp [slotActive, isActiveStatus]

theorem get_or_create_user_appts (db : MemDB) (phone name : String) :
    ((get_or_create_user db phone name).2).appointments = db.appointments := by
  unfold get_or_create_user
  split <;> rfl

theorem book_appointment_snd (db : MemDB) (phone d t : String) (mid notes : Option String)
    (dur : Nat) :
    ((book_appointment db phone d t mid notes dur).2).appointments =
      db.appointments ++ [(book_appointment db phone d t mid notes dur).1] := by
  unfold book_appointment
  simp [get_or_create_user_appts]

theorem book_appointment_fst_fields (db : MemDB) (phone d t : String)
    (mid notes : Option String) (dur : Nat) :
    (book_appointment db phone d t mid notes dur).1.date = d ∧
    (book_appointment db phone d t mid notes dur).1.time = t ∧
    (book_appointment db phone d t mid notes dur).1.status = "booked" ∧
    (book_appointment db phone d t mid notes dur).1.mentorId = mid ∧
    (book_appointment db phone d t mid notes dur).1.contact = phone := by
  unfold book_appointment
  exact ⟨rfl, rfl, rfl, rfl, rfl⟩

theorem cancel_appointment_slotInv (db : MemDB) (phone d t : String)
    (h : slotInv db.appointments) :
    slotInv ((cancel_appointment db phone d t).2).appointments := by
  intro d' t'
  exact Nat.le_trans
    (updateFirst_countP_le _ _ _ (fun a => slotActive_cancelled d' t' a) db.appointments)
    (h d' t')

theorem cancel_appointment_by_id_slotInv (db : MemDB) (aid : String)
    (h : slotInv db.appointments) :
    slotInv ((cancel_appointment_by_id db aid).2).appointments := by
  intro d' t'
  exact Nat.le_trans
    (updateFirst_countP_le _ _ _ (fun a => slotActive_cancelled d' t' a) db.appointments)
    (h d' t')

theorem slotActive_moved (nd nt d t : String) (mid : Option String) (a : Appt)
    (hne : (nd == d && nt == t) = false) :
    slotActive d t
      { a with date := nd, time := nt,
               mentorId := if optTruthy mid then mid else a.mentorId } = false := by
  simp only [slotActive]
  simp only [Bool.and_eq_false_iff] at hne ⊢
  rcases hne with hne | hne
  · exact Or.inl (Or.inl hne)
  · exact Or.inl (Or.inr hne)

theorem modify_apply_slotInv (db : MemDB) (phone od ot nd nt : String) (mid : Option String)
    (h : slotInv db.appointments)
    (hfree : db.appointments.any (slotActive nd nt) = false) :
    slotInv ((modify_apply db phone od ot nd nt mid).2).appointments := by
  intro d' t'
  unfold modify_apply
  by_cases hdt : (nd == d' && nt == t') = true
  · have hd : nd = d' := by
      have := (Bool.and_eq_true _ _).mp hdt
      exact eq_of_beq this.1
    have ht : nt = t' := by
      have := (Bool.and_eq_true _ _).mp hdt
      exact eq_of_beq this.2
    subst hd; subst ht
    exact updateFirst_countP_of_zero _ _ _ db.appointments (countP_eq_zero_of_any_false hfree)
  · simp only [Bool.not_eq_true] at hdt
    exact Nat.le_trans
      (updateFirst_countP_le _ _ _ (fun a => slotActive_moved nd nt d' t' mid a hdt)
        db.appointments)
      (h d' t')

theorem modify_appointment_slotInv (db : MemDB) (phone od ot nd nt : String)
    (mid : Option String) (h : slotInv db.appointments) :
    slotInv ((modify_appointment db phone od ot nd nt mid).2).appointments := by
  unfold modify_appointment
  split
  · simp only [is_mentor_available, Bool.not_true, Bool.false_eq_true, if_false]
    split
    · exact h
    · rename_i hsb
      simp only [Bool.not_eq_true, is_slot_booked] at hsb
      exact modify_apply_slotInv db phone od ot nd nt mid h hsb
  · split
    · exact h
    · rename_i hsb
      simp only [Bool.not_eq_true, is_slot_booked] at hsb
      exact modify_apply_slotInv db phone od ot nd nt mid h hsb

theorem slotInv_book (db : MemDB) (phone d t : String) (mid notes : Option String)
    (h : slotInv db.appointments)
    (hfree : is_slot_booked db d t mid = false) :
    slotInv ((book_appointment db phone d t mid notes 60).2).appointments := by
  intro d' t'
  rw [book_appointment_snd, List.countP_append]
  have hfields := book_appointment_fst_fields db phone d t mid notes 60
  have hsingle : List.countP (slotActive d' t') [(book_appointment db phone d t mid notes 60).1] =
      if slotActive d' t' (book_appointment db phone d t mid notes 60).1 then 1 else 0 := by
    simp [List.countP_cons]
  simp only [is_slot_booked] at hfree
  by_cases hc : slotActive d' t' (book_appointment db phone d t mid notes 60).1 = true
  · have hparts := (Bool.and_eq_true _ _).mp hc
    have hd : d = d' := by
      have hdate := hparts.1
      have hdate2 := (Bool.and_eq_true _ _).mp hdate
      have := hdate2.1
      rw [hfields.1] at this
      exact eq_of_beq this
    have ht : t = t' := by
      have htime := ((Bool.and_eq_true _ _).mp hparts.1).2
      rw [hfields.2.1] at htime
      exact eq_of_beq htime
    have h0 : db.appointments.countP (slotActive d' t') = 0 := by
      rw [← hd, ← ht]
      exact countP_eq_zero_of_any_false hfree
    rw [h0, hsingle, hc]
    simp
  · simp only [Bool.not_eq_true] at hc
    rw [hsingle, hc]
    simpa using h d' t'

theorem update_user_name_appts (db : MemDB) (phone name : String) :
    (update_user_name db phone name).appointments = db.appointments := rfl

theorem toolIdentify_appts (s : AgentState) (raw : String) (name : Option String) :
    (toolIdentify s raw name).db.appointments = s.db.appointments := by
  simp only [toolIdentify]
  rw [get_or_create_user_appts]
  repeat' split
  all_goals first
    | rw [update_user_name_appts, get_or_create_user_appts]
    | rw [get_or_create_user_appts]

theorem toolEndConversation_appts (s : AgentState) (now : Nat) (usage : Usage) :
    ((toolEndConversation s now usage).1).db.appointments = s.db.appointments := rfl

theorem toolBook_slotInv (s : AgentState) (d t0 : String) (mid mname notes : Option String)
    (ok : Bool) (h : slotInv s.db.appointments) :
    slotInv (((toolBook s d t0 mid mname notes ok).1).db.appointments) := by
  simp only [toolBook]
  split
  · exact h
  · split
    · exact h
    · rename_i mid2 hres
      split
      · exact h
      · split
        · exact h
        · split
          · exact h
          · split
            · exact h
            · split
              · exact h
              · split
                · exact h
                · rename_i hsb
                  simp only [Bool.not_eq_true] at hsb
                  simpa using slotInv_book s.db _ d _ mid2 notes h hsb

theorem toolCancel_slotInv (s : AgentState) (d t0 : String) (aid : Option String)
    (h : slotInv s.db.appointments) :
    slotInv (((toolCancel s d t0 aid).1).db.appointments) := by
  simp only [toolCancel]
  split
  · exact h
  · split
    · exact h
    · split
      · split
        · exact h
        · split
          · exact h
          · simpa using cancel_appointment_by_id_slotInv s.db _ h
      · split
        · exact h
        · simpa using cancel_appointment_slotInv s.db _ d _ h

theorem toolModifyResolved_slotInv (s : AgentState) (phone od ot nd nt : String) (orig : Appt)
    (h : slotInv s.db.appointments) :
    slotInv (((toolModifyResolved s phone od ot nd nt orig).1).db.appointments) := by
  simp only [toolModifyResolved]
  split
  · exact h
  · split
    · exact h
    · split
      · exact h
      · split
        · exact h
        · have := modify_appointment_slotInv s.db phone od ot nd nt orig.mentorId h
          split <;> simpa using this

theorem toolModify_slotInv (s : AgentState) (od ot0 nd nt0 : String) (aid : Option String)
    (ok : Bool) (h : slotInv s.db.appointments) :
    slotInv (((toolModify s od ot0 nd nt0 aid ok).1).db.appointments) := by
  simp only [toolModify]
  split
  · exact h
  · split
    · split
      · exact h
      · split
        · split
          · exact h
          · split
            · exact h
            · exact toolModifyResolved_slotInv s _ od _ nd _ _ h
        · split
          · exact h
          · exact toolModifyResolved_slotInv s _ od _ nd _ _ h
    · exact h

theorem stepTool_slotInv (s : AgentState) (op : ToolOp) (h : slotInv s.db.appointments) :
    slotInv ((stepTool s op).db.appointments) := by
  cases op with
  | identify raw name => rw [stepTool, toolIdentify_appts]; exact h
  | book d t mid mname notes ok => exact toolBook_slotInv s d t mid mname notes ok h
  | cancel d t aid => exact toolCancel_slotInv s d t aid h
  | modify od ot nd nt aid ok => exact toolModify_slotInv s od ot nd nt aid ok h
  | endConv now u => rw [stepTool, toolEndConversation_appts]; exact h

theorem runTools_slotInv (ops : List ToolOp) :
    ∀ s : AgentState, slotInv s.db.appointments → slotInv ((runTools s ops).db.appointments) := by
  induction ops with
  | nil => intro s h; exact h
  | cons op rest ih =>
    intro s h
    exact ih (stepTool s op) (stepTool_slotInv s op h)

/-! ### Further helper lemmas for the claims -/

theorem modify_apply_none (db : MemDB) (phone od ot nd nt : String) (mid : Option String)
    (h : (modify_apply db phone od ot nd nt mid).1 = none) :
    ((modify_apply db phone od ot nd nt mid).2).appointments = db.appointments := by
  unfold modify_apply at h ⊢
  exact updateFirst_none_eq _ _ db.appointments h

theorem modify_appointment_none (db : MemDB) (phone od ot nd nt : String) (mid : Option String)
    (h : (modify_appointment db phone od ot nd nt mid).1 = none) :
    ((modify_appointment db phone od ot nd nt mid).2).appointments = db.appointments := by
  unfold modify_appointment at h ⊢
  by_cases h1 : optTruthy mid = true
  · rw [if_pos h1] at h ⊢
    rw [if_neg (by simp [is_mentor_available])] at h ⊢
    by_cases h2 : is_slot_booked db nd nt mid = true
    · rw [if_pos h2]
    · rw [if_neg h2] at h ⊢
      exact modify_apply_none db phone od ot nd nt mid h
  · rw [if_neg h1] at h ⊢
    by_cases h2 : is_slot_booked db nd nt none = true
    · rw [if_pos h2]
    · rw [if_neg h2] at h ⊢
      exact modify_apply_none db phone od ot nd nt mid h

theorem toolModifyResolved_atomic (s : AgentState) (phone od ot nd nt : String) (orig : Appt)
    (h : ((toolModifyResolved s phone od ot nd nt orig).2).isSuccess = false) :
    ((toolModifyResolved s phone od ot nd nt orig).1).db.appointments = s.db.appointments := by
  simp only [toolModifyResolved] at h ⊢
  by_cases h1 : (!optTruthy orig.mentorId) = true
  · rw [if_pos h1]
  · rw [if_neg h1] at h ⊢
    cases hm : get_mentor_by_id s.db (orig.mentorId.getD "") with
    | none => simp only [hm]
    | some mentor =>
      simp only [hm] at h ⊢
      by_cases h2 : (!is_mentor_available s.db (orig.mentorId.getD "") nd nt) = true
      · rw [if_pos h2]
      · rw [if_neg h2] at h ⊢
        by_cases h3 : is_slot_booked s.db nd nt orig.mentorId = true
        · rw [if_pos h3]
        · rw [if_neg h3] at h ⊢
          cases hro : (modify_appointment s.db phone od ot nd nt orig.mentorId).1 with
          | some a => simp [hro, ModifyResult.isSuccess] at h
          | none => simpa using modify_appointment_none s.db phone od ot nd nt orig.mentorId hro

theorem dbWalk_bounds (fuel : Nat) :
    ∀ (current endT dur : Nat) (ts : List Nat), dbWalk fuel current endT dur = some ts →
      ∀ x ∈ ts, current ≤ x ∧ x < endT := by
  induction fuel with
  | zero =>
    intro current endT dur ts h x hx
    unfold dbWalk at h
    split at h
    · exact absurd h (by simp)
    · cases h; simp at hx
  | succ n ih =>
    intro current endT dur ts h x hx
    unfold dbWalk at h
    split at h
    · rename_i hlt
      cases hrec : dbWalk n (current + dur) endT dur with
      | none => rw [hrec] at h; simp at h
      | some ts' =>
        rw [hrec] at h
        simp only [Option.some.injEq] at h
        subst h
        rcases List.mem_cons.mp hx with hx | hx
        · subst hx; exact ⟨Nat.le_refl _, hlt⟩
        · have := ih (current + dur) endT dur ts' hrec x hx
          exact ⟨Nat.le_trans (Nat.le_add_right _ _) this.1, this.2⟩
    · cases h; simp at hx

theorem dbWalk_isSome (dur : Nat) (hdur : 0 < dur) :
    ∀ (n current endT : Nat), endT ≤ current + n → (dbWalk n current endT dur).isSome = true := by
  intro n
  induction n with
  | zero =>
    intro current endT hle
    unfold dbWalk
    rw [if_neg (by omega)]
    rfl
  | succ k ih =>
    intro current endT hle
    unfold dbWalk
    split
    · have hrec := ih (current + dur) endT (by omega)
      cases hr : dbWalk k (current + dur) endT dur with
      | none => rw [hr] at hrec; simp at hrec
      | some ts => rfl
    · rfl

theorem fetchWalk_diverges_from (fuel : Nat) :
    ∀ c : Nat, c % 60 = 0 → c < 1410 → fetchWalk fuel c 1410 60 = none := by
  induction fuel with
  | zero =>
    intro c _ hlt
    unfold fetchWalk
    rw [if_pos hlt]
  | succ k ih =>
    intro c hmod hlt
    unfold fetchWalk
    rw [if_pos hlt]
    have hrec := ih ((c + 60) % 1440) (by omega) (by omega)
    rw [hrec]

/-! ### Concrete fixtures (used by counterexamples and witnesses) -/

/-- The default in-memory mentor table of `Database._init_memory`. -/
def mentors0 : List Mentor :=
  [⟨"1", "Dr. Sarah Smith", "General Consultation", true⟩,
   ⟨"2", "Dr. John Doe", "Technical Review", true⟩]

/-- A booked appointment of mentor `"1"` on 2025-03-10 at 09:00. -/
def apt1 : Appt :=
  ⟨"apt_1", "+15551230000", "+15551230000", "2025-03-10", "09:00", 60, "booked", some "1", none⟩

/-- A store holding only `apt1`, with no availability windows configured. -/
def db1 : MemDB := ⟨[], mentors0, [apt1], []⟩

/-- A session the abandonment sweep has already marked abandoned. -/
def sess1 : Sess := ⟨"session_1", none, none, 0, none, "abandoned", none, none, none⟩

/-- A conversation state right after a successful `identify_user` call, in a
store with no appointments and no availability windows. -/
def stateIdentified : AgentState :=
  runTools (initState [] mentors0 [] [] "session_1") [.identify "5551230000" none]

/-- A fresh conversation state with no identified caller. -/
def stateFresh : AgentState := initState [] mentors0 [] [] "session_1"

theorem availScan_mem (t : Nat) :
    ∀ l : List Avail, availScan t l = true →
      ∃ w ∈ l, ∃ ts te : Nat, parseHMS w.startTime = some ts ∧ parseHMS w.endTime = some te ∧
        ts ≤ t ∧ t < te := by
  intro l
  induction l with
  | nil => intro h; exact absurd h (by simp [availScan])
  | cons w ws ih =>
    intro h
    unfold availScan at h
    cases hs : parseHMS w.startTime with
    | none => rw [hs] at h; simp at h
    | some ts =>
      cases he : parseHMS w.endTime with
      | none => rw [hs, he] at h; simp at h
      | some te =>
        simp only [hs, he] at h
        by_cases hc : (ts ≤ t && t < te) = true
        · have := (Bool.and_eq_true _ _).mp hc
          exact ⟨w, List.mem_cons_self w ws, ts, te, hs, he,
            of_decide_eq_true this.1, of_decide_eq_true this.2⟩
        · rw [if_neg hc] at h
          obtain ⟨w', hw', hrest⟩ := ih h
          exact ⟨w', List.mem_cons_of_mem w hw', hrest⟩

/-! ## The claims -/

/-- C1: After any sequence of sequential Tool Dispatcher calls (identify,
book, cancel, modify, end) starting from a ledger with no appointments, for
every `(mentor_id, date, time)` at most one appointment holds status in
`{pending, booked}` at any instant.  Proved for the in-memory ledger the
repository ships: the dispatcher's slot check guards every insert and move. -/
theorem C1_no_double_booking (users : List DbUser) (mentors : List Mentor)
    (avail : List Avail) (sessions : List Sess) (sid : String)
    (ops : List ToolOp) (m d t : String) :
    ((runTools (initState users mentors avail sessions sid) ops).db.appointments).countP
      (fun a => a.mentorId == some m && slotActive d t a) ≤ 1 := by
  have hinit : slotInv (initState users mentors avail sessions sid).db.appointments := by
    intro d' t'
    simp [initState]
  have hinv := runTools_slotInv ops (initState users mentors avail sessions sid) hinit
  refine Nat.le_trans (List.countP_mono_left ?_) (hinv d t)
  intro a _ hpa
  exact ((Bool.and_eq_true _ _).mp hpa).2

/-- C2 counterexample: the in-memory `is_slot_booked` ignores its `mentor_id`
argument.  In `db1` the only non-terminal appointment belongs to mentor `"1"`,
yet the query for mentor `"2"` at the same `(date, time)` returns `true`,
where the claim requires `false`. -/
theorem C2_counterexample :
    is_slot_booked db1 "2025-03-10" "09:00" (some "2") = true ∧
    db1.appointments.all (fun a => !(a.mentorId == some "2")) = true := by decide

/-- C2 amended: `is_slot_booked` is true iff a non-terminal appointment
exists at that `(date, time)` — with the mentor filter applied only on the
Supabase query path (and only when a truthy `mentor_id` is supplied); the
in-memory fallback ignores `mentor_id` entirely, so it also returns true when
the only non-terminal appointments at the slot belong to a different mentor. -/
theorem C2_slot_query_semantics :
    (∀ (db : MemDB) (d t : String) (mid : Option String),
      is_slot_booked db d t mid = true ↔ ∃ a ∈ db.appointments, slotActive d t a = true) ∧
    (∀ (rows : List Appt) (d t : String) (mid : Option String),
      is_slot_booked_dbPath rows d t mid = true ↔
        ∃ a ∈ rows, slotActive d t a = true ∧ (optTruthy mid = true → a.mentorId = mid)) := by
  constructor
  · intro db d t mid
    unfold is_slot_booked
    exact List.any_eq_true
  · intro rows d t mid
    unfold is_slot_booked_dbPath
    rw [List.any_eq_true]
    constructor
    · rintro ⟨a, ha, hpa⟩
      have hp := (Bool.and_eq_true _ _).mp hpa
      refine ⟨a, ha, hp.1, fun ht => ?_⟩
      have := hp.2
      rw [if_pos ht] at this
      exact eq_of_beq this
    · rintro ⟨a, ha, h1, h2⟩
      refine ⟨a, ha, (Bool.and_eq_true _ _).mpr ⟨h1, ?_⟩⟩
      by_cases ht : optTruthy mid = true
      · rw [if_pos ht]
        exact beq_iff_eq.mpr (h2 ht)
      · rw [if_neg ht]

/-- C3 counterexample: in `stateIdentified` mentor `"1"` has NO availability
window at all (`availability = []`), yet `book_appointment` for
`2099-01-01 09:00` succeeds and creates the appointment, because the
in-memory `is_mentor_available` is constantly true — where the claim requires
the mentor-unavailable rejection and no appointment. -/
theorem C3_counterexample :
    stateIdentified.db.availability = [] ∧
    (toolBook stateIdentified "2099-01-01" "09:00" (some "1") none none true).2 =
      BookResult.booked "apt_1" ∧
    ((toolBook stateIdentified "2099-01-01" "09:00" (some "1") none none true).1).db.appointments.length = 1 := by
  decide

/-- C3 amended: only the Supabase-path `is_mentor_available` enforces
coverage — it returns true only when some `is_available` window of that
mentor on that date covers the time; the in-memory fallback reports every
mentor as available for every `(date, time)`, so in fallback mode a booking
request with no covering window is not rejected as mentor-unavailable. -/
theorem C3_availability_check_semantics :
    (∀ (rows : List Avail) (m d t : String),
      is_mentor_available_dbPath rows m d t = true →
        ∃ w ∈ rows, w.mentorId = m ∧ w.date = d ∧ w.available = true ∧
          ∃ ts te tt : Nat, parseHMS w.startTime = some ts ∧ parseHMS w.endTime = some te ∧
            parseHM t = some tt ∧ ts ≤ tt ∧ tt < te) ∧
    (∀ (db : MemDB) (m d t : String), is_mentor_available db m d t = true) := by
  constructor
  · intro rows m d t h
    simp only [is_mentor_available_dbPath] at h
    by_cases he : (rows.filter (fun w => w.mentorId == m && w.date == d && w.available)).isEmpty = true
    · rw [if_pos he] at h
      exact absurd h (by simp)
    · rw [if_neg he] at h
      cases hp : parseHM t with
      | none =>
        simp only [hp] at h
        exact absurd h (by simp)
      | some tt =>
        simp only [hp] at h
        obtain ⟨w, hwmem, ts, te, hts, hte, hle, hlt⟩ := availScan_mem tt _ h
        have hw := List.mem_filter.mp hwmem
        have hprops := (Bool.and_eq_true _ _).mp hw.2
        have hmd := (Bool.and_eq_true _ _).mp hprops.1
        exact ⟨w, hw.1, eq_of_beq hmd.1, eq_of_beq hmd.2, hprops.2,
          ts, te, tt, hts, hte, rfl, hle, hlt⟩
  · intro db m d t
    rfl

/-- C4: `modify` is atomic — whenever the modify tool returns anything other
than its success message, the appointment ledger is left exactly as it was:
the source appointment keeps its date, time, status and mentor, and no
appointment is created. -/
theorem C4_modify_atomic (s : AgentState) (oldDate oldTime newDate newTime : String)
    (apptId : Option String) (pastOk : Bool)
    (h : ((toolModify s oldDate oldTime newDate newTime apptId pastOk).2).isSuccess = false) :
    ((toolModify s oldDate oldTime newDate newTime apptId pastOk).1).db.appointments =
      s.db.appointments := by
  simp only [toolModify] at h ⊢
  cases hu : s.userPhone with
  | none => simp only [hu]
  | some phone =>
    simp only [hu] at h ⊢
    cases hot : normalize_time oldTime with
    | none => simp only [hot]
    | some ot =>
      simp only [hot] at h ⊢
      cases hnt : normalize_time newTime with
      | none => simp only [hnt]
      | some nt =>
        simp only [hnt] at h ⊢
        by_cases hpast : (!pastOk) = true
        · rw [if_pos hpast]
        · rw [if_neg hpast] at h ⊢
          by_cases hid : optTruthy apptId = true
          · rw [if_pos hid] at h ⊢
            cases ha : get_appointment_by_id s.db (apptId.getD "") with
            | none => simp only [ha]
            | some apt =>
              simp only [ha] at h ⊢
              by_cases hcn : (!apt.contact == phone) = true
              · rw [if_pos hcn]
              · rw [if_neg hcn] at h ⊢
                exact toolModifyResolved_atomic s phone oldDate ot newDate nt apt h
          · rw [if_neg hid] at h ⊢
            cases hf : (get_user_appointments s.db phone (some ["pending", "booked"])).find?
                (fun a => a.date == oldDate && a.time == ot) with
            | none => simp only [hf]
            | some apt =>
              simp only [hf] at h ⊢
              exact toolModifyResolved_atomic s phone oldDate ot newDate nt apt h

/-- C4 witness: a concrete failed modify (no identified caller) leaves the
ledger unchanged. -/
theorem C4_modify_atomic_witness :
    ((toolModify stateFresh "2025-03-10" "09:00" "2025-03-11" "10:00" none true).1).db.appointments =
      stateFresh.db.appointments :=
  C4_modify_atomic stateFresh "2025-03-10" "09:00" "2025-03-11" "10:00" none true (by decide)

/-- C5 counterexample: `end_session` sets status `"completed"`
unconditionally, so a session the abandonment sweep already marked
`"abandoned"` — a terminal state — is moved to `"completed"` when the
end-of-conversation tool persists the session, where the claim requires a
terminal status never to change. -/
theorem C5_counterexample :
    sess1.status = "abandoned" ∧
    (end_session 100 [sess1] "session_1" none none none).map Sess.status = ["completed"] := by
  decide

/-- C5 amended: the abandonment sweep respects terminal states — it never
touches a session whose status is not `"active"`, and whenever it changes a
session it is an `active → abandoned` transition; but `end_session` (and the
guardless `update_session` it is built on) overwrites the status to
`"completed"` unconditionally, so a session already `abandoned` (or
`completed`) is still marked `completed` by the end-of-conversation tool. -/
theorem C5_session_status_semantics :
    (∀ (now timeout : Nat) (s : Sess), s.status ≠ "active" → cleanupOne now timeout s = s) ∧
    (∀ (now timeout : Nat) (s : Sess), cleanupOne now timeout s ≠ s →
      s.status = "active" ∧ (cleanupOne now timeout s).status = "abandoned") ∧
    (∀ (now : Nat) (store : List Sess) (sid : String) (c sm : Option String)
        (co : Option Cost) (s' : Sess),
      s' ∈ end_session now store sid c sm co → s'.sid = sid → s'.status = "completed") := by
  refine ⟨?_, ?_, ?_⟩
  · intro now timeout s h
    unfold cleanupOne
    rw [if_neg ?_]
    simp only [Bool.and_eq_true, beq_iff_eq]
    intro hc
    exact h hc.1
  · intro now timeout s h
    unfold cleanupOne at h ⊢
    by_cases hc : (s.status == "active" && decide (timeout * 60 < now - s.startedAt)) = true
    · rw [if_pos hc]
      have := (Bool.and_eq_true _ _).mp hc
      exact ⟨eq_of_beq this.1, rfl⟩
    · rw [if_neg hc] at h
      exact absurd rfl h
  · intro now store sid c sm co s' hmem hsid
    unfold end_session update_session at hmem
    obtain ⟨s0, _, hs0⟩ := List.mem_map.mp hmem
    by_cases hc : (s0.sid == sid) = true
    · rw [if_pos hc] at hs0
      rw [← hs0]
    · rw [if_neg hc] at hs0
      subst hs0
      exact absurd (beq_iff_eq.mpr hsid) hc

/-- C6 counterexample: the `fetch_slots` walk over the window
22:00:00-23:30:00 with 60-minute slots (start = 1320, end = 1410 minutes)
wraps past midnight and emits the candidate time 0 (i.e. "00:00"), which is
smaller than the window's `start_time` — where the claim requires
`start_time ≤ time` for every emitted slot. -/
theorem C6_counterexample :
    fetchWalkEmit 3 1320 1410 60 = [1320, 1380, 0] ∧ 0 < 1320 := by decide

/-- C6 amended: the `get_available_slots_for_mentor` walk (`datetime`-based,
no wrap-around) emits only times `t` with `start_time ≤ t < end_time` and
terminates for every positive `slot_duration` — a step crossing midnight just
ends the loop; but the `fetch_slots` walk reduces its step modulo 24 hours,
and on a window whose steps cross midnight (22:00-23:30 at 60 minutes) it
emits out-of-window times and never terminates, for any iteration budget. -/
theorem C6_slot_walk_semantics :
    (∀ (fuel startT endT dur : Nat) (ts : List Nat),
      dbWalk fuel startT endT dur = some ts → ∀ x ∈ ts, startT ≤ x ∧ x < endT) ∧
    (∀ startT endT dur : Nat, 0 < dur → ∃ fuel ts, dbWalk fuel startT endT dur = some ts) ∧
    (∀ fuel : Nat, fetchWalk fuel 1320 1410 60 = none) := by
  refine ⟨?_, ?_, ?_⟩
  · intro fuel startT endT dur ts h
    exact dbWalk_bounds fuel startT endT dur ts h
  · intro startT endT dur hdur
    have hs := dbWalk_isSome dur hdur endT startT endT (by omega)
    cases hr : dbWalk endT startT endT dur with
    | none => rw [hr] at hs; simp at hs
    | some ts => exact ⟨endT, ts, hr⟩
  · intro fuel
    exact fetchWalk_diverges_from fuel 1320 (by norm_num) (by norm_num)

/-- C7: cancel is idempotent.  For a store with at most one non-terminal
appointment matching the key (true of every reachable store): if a matching
non-terminal appointment exists, cancelling twice returns `true` then
`false`, the appointment ends `"cancelled"`, and the second call changes
nothing; if none exists (absent or already terminal), cancel returns `false`
and leaves the store untouched — for both the by-id and the
by-(phone, date, time) cancel operations. -/
theorem C7_cancel_idempotent (db : MemDB) (aid phone d t : String)
    (h1 : db.appointments.countP (fun a => a.aid == aid && isActiveStatus a.status) ≤ 1)
    (h2 : db.appointments.countP
        (fun a => a.contact == phone && a.date == d && a.time == t && isActiveStatus a.status) ≤ 1) :
    (db.appointments.any (fun a => a.aid == aid && isActiveStatus a.status) = true →
      (cancel_appointment_by_id db aid).1 = true ∧
      (∃ a ∈ ((cancel_appointment_by_id db aid).2).appointments,
          a.aid = aid ∧ a.status = "cancelled") ∧
      cancel_appointment_by_id (cancel_appointment_by_id db aid).2 aid =
        (false, (cancel_appointment_by_id db aid).2)) ∧
    (db.appointments.any (fun a => a.aid == aid && isActiveStatus a.status) = false →
      cancel_appointment_by_id db aid = (false, db)) ∧
    (db.appointments.any
        (fun a => a.contact == phone && a.date == d && a.time == t && isActiveStatus a.status) = true →
      (cancel_appointment db phone d t).1 = true ∧
      cancel_appointment (cancel_appointment db phone d t).2 phone d t =
        (false, (cancel_appointment db phone d t).2)) ∧
    (db.appointments.any
        (fun a => a.contact == phone && a.date == d && a.time == t && isActiveStatus a.status) = false →
      cancel_appointment db phone d t = (false, db)) := by
  have hqid : ∀ a : Appt,
      (fun a : Appt => a.aid == aid && isActiveStatus a.status)
        ({ a with status := "cancelled" }) = false := by
    intro a
    simp [isActiveStatus]
  have hqdt : ∀ a : Appt,
      (fun a : Appt => a.contact == phone && a.date == d && a.time == t && isActiveStatus a.status)
        ({ a with status := "cancelled" }) = false := by
    intro a
    simp [isActiveStatus]
  refine ⟨?_, ?_, ?_, ?_⟩
  · intro hany
    refine ⟨?_, ?_, ?_⟩
    · simp only [cancel_appointment_by_id]
      rw [updateFirst_fst_isSome]
      exact hany
    · obtain ⟨a, ha, hqa, hmem⟩ := updateFirst_mem _ _ db.appointments hany
      exact ⟨{ a with status := "cancelled" }, hmem,
        eq_of_beq ((Bool.and_eq_true _ _).mp hqa).1, rfl⟩
    · have hnone := updateFirst_any_false _ _ hqid db.appointments h1
      simp only [cancel_appointment_by_id]
      rw [updateFirst_no_match _ _ _ hnone]
      rfl
  · intro hany
    simp only [cancel_appointment_by_id]
    rw [updateFirst_no_match _ _ _ hany]
    rfl
  · intro hany
    refine ⟨?_, ?_⟩
    · simp only [cancel_appointment]
      rw [updateFirst_fst_isSome]
      exact hany
    · have hnone := updateFirst_any_false _ _ hqdt db.appointments h2
      simp only [cancel_appointment]
      rw [updateFirst_no_match _ _ _ hnone]
      rfl
  · intro hany
    simp only [cancel_appointment]
    rw [updateFirst_no_match _ _ _ hany]
    rfl

/-- C7 witness: cancelling the booked `apt1` twice returns `true` then
`false` and the second call changes nothing. -/
theorem C7_cancel_idempotent_witness :
    (cancel_appointment_by_id db1 "apt_1").1 = true ∧
    cancel_appointment_by_id (cancel_appointment_by_id db1 "apt_1").2 "apt_1" =
      (false, (cancel_appointment_by_id db1 "apt_1").2) := by
  have h := C7_cancel_idempotent db1 "apt_1" "+15551230000" "2025-03-10" "09:00"
    (by decide) (by decide)
  exact ⟨(h.1 (by decide)).1, (h.1 (by decide)).2.2⟩

/-- C8: the time normalizer maps "9 AM", "09:00" and "9:00AM" each to
"09:00", and "2:30 PM" to "14:30". -/
theorem C8_time_normalization :
    normalize_time "9 AM" = some "09:00" ∧
    normalize_time "09:00" = some "09:00" ∧
    normalize_time "9:00AM" = some "09:00" ∧
    normalize_time "2:30 PM" = some "14:30" := by decide

/-- C9: the caller-facing string returned by `end_conversation` does not
depend on the accumulated cost meters — two runs on identical session state
and action logs that differ only in collected usage metrics return the same
string, so no cost figure derived from the metrics can appear in it. -/
theorem C9_response_usage_independent (s : AgentState) (now : Nat) (u1 u2 : Usage) :
    (toolEndConversation s now u1).2 = (toolEndConversation s now u2).2 := rfl

/-- C10: the Ledger-level `Database.book_appointment` performs no conflict or
availability check of its own — for every store (including one where a
non-terminal appointment already occupies the same slot) it unconditionally
appends a new appointment in status `"booked"` for exactly the requested
mentor, date and time, and returns it. -/
theorem C10_ledger_book_unconditional (db : MemDB) (phone d t : String)
    (mid notes : Option String) (dur : Nat) :
    ((book_appointment db phone d t mid notes dur).2).appointments =
      db.appointments ++ [(book_appointment db phone d t mid notes dur).1] ∧
    (book_appointment db phone d t mid notes dur).1.status = "booked" ∧
    (book_appointment db phone d t mid notes dur).1.mentorId = mid ∧
    (book_appointment db phone d t mid notes dur).1.date = d ∧
    (book_appointment db phone d t mid notes dur).1.time = t ∧
    (book_appointment db phone d t mid notes dur).1.contact = phone := by
  have hf := book_appointment_fst_fields db phone d t mid notes dur
  exact ⟨book_appointment_snd db phone d t mid notes dur,
    hf.2.2.1, hf.2.2.2.1, hf.1, hf.2.1, hf.2.2.2.2⟩
